import Mathlib

/-!
Shallow embedding of the RM-Projections reshape tools (src/Savage.py and
src/app.py).  DataFrames are modelled as `Table` (ordered column names plus
rows of cells); pandas scalar cells are modelled by `Cell` (text, integer
number, or NaN/missing).  Numeric cells are modelled as integers: every
numeric value appearing in the claims is integral, and nothing proved here
depends on fractional values.
-/

namespace RM

/-- A pandas scalar cell: a text value, a numeric value, or NaN/missing. -/
inductive Cell where
  | str (s : String)
  | num (v : Int)
  | nan
deriving DecidableEq, Repr

/-- A DataFrame: an ordered list of column names and a list of rows.
Cells missing from a ragged row read as `Cell.nan`. -/
structure Table where
  cols : List String
  rows : List (List Cell)
deriving DecidableEq, Repr

/-- Errors raised by the transforms.  `missingCols` models
`ValueError(f"Missing required columns ...: <list>")` — the structured
payload `cols` is exactly the list interpolated into the message.
`keyError` models a pandas `KeyError` naming a single column. -/
inductive Err where
  | missingCols (context : String) (cols : List String)
  | keyError (col : String)
deriving DecidableEq, Repr

/-- The column names an error's message lists. -/
def Err.mentions : Err → List String
  | .missingCols _ cs => cs
  | .keyError c => [c]

instance {ε α : Type} [DecidableEq ε] [DecidableEq α] :
    DecidableEq (Except ε α) := fun a b =>
  match a, b with
  | .error e, .error f =>
    if h : e = f then .isTrue (h ▸ rfl)
    else .isFalse (fun hh => h (Except.error.inj hh))
  | .error _, .ok _ => .isFalse (fun hh => Except.noConfusion hh)
  | .ok _, .error _ => .isFalse (fun hh => Except.noConfusion hh)
  | .ok x, .ok y =>
    if h : x = y then .isTrue (h ▸ rfl)
    else .isFalse (fun hh => h (Except.ok.inj hh))

/-!  Python string primitives (`.strip()`, `.lower()`, `.startswith`,
`str.split`, integer parsing), implemented by structural recursion on the
character list so that every value in this file evaluates by kernel
reduction. -/

def isWS (c : Char) : Bool :=
  c = ' ' || c = '\t' || c = '\n' || c = '\r'

def trimChars (l : List Char) : List Char :=
  ((l.dropWhile isWS).reverse.dropWhile isWS).reverse

/-- Python `str.strip()`. -/
def strip (s : String) : String := String.mk (trimChars s.data)

/-- Python `str.lower()`. -/
def lowerStr (s : String) : String := String.mk (s.data.map Char.toLower)

def startsWithChars : List Char → List Char → Bool
  | _, [] => true
  | [], _ :: _ => false
  | a :: as, b :: bs => a = b && startsWithChars as bs

/-- Python `str.startswith`. -/
def startsWith (s pat : String) : Bool := startsWithChars s.data pat.data

def splitAuxL (p : Char → Bool) : List Char → List Char → List (List Char)
  | [], acc => [acc.reverse]
  | c :: cs, acc =>
    if p c then acc.reverse :: splitAuxL p cs [] else splitAuxL p cs (c :: acc)

/-- Split on the characters satisfying `p` (separator-delimited fields). -/
def splitOn (s : String) (p : Char → Bool) : List String :=
  (splitAuxL p s.data []).map String.mk

def charDigit? (c : Char) : Option Nat :=
  if '0' ≤ c && c ≤ '9' then some (c.toNat - '0'.toNat) else none

def toNatAux : List Char → Nat → Option Nat
  | [], acc => some acc
  | c :: cs, acc =>
    match charDigit? c with
    | some d => toNatAux cs (acc * 10 + d)
    | none => none

/-- Parse a nonempty all-digit string. -/
def parseNat? (s : String) : Option Nat :=
  match s.data with
  | [] => none
  | l => toNatAux l 0

/-- A calendar date. -/
structure Date where
  year : Int
  month : Nat
  day : Nat
deriving DecidableEq, Repr

def isLeap (y : Int) : Bool :=
  y % 4 = 0 && (y % 100 ≠ 0 || y % 400 = 0)

def daysInMonth (y : Int) (m : Nat) : Nat :=
  if m = 2 then (if isLeap y then 29 else 28)
  else if m = 4 || m = 6 || m = 9 || m = 11 then 30
  else 31

/-- Civil date from a count of days since 1970-01-01 (proleptic Gregorian,
standard integer algorithm). -/
def civilFromDays (z₀ : Int) : Date :=
  let z := z₀ + 719468
  let era := Int.fdiv z 146097
  let doe := z - era * 146097
  let yoe := (doe - doe / 1460 + doe / 36524 - doe / 146096) / 365
  let y := yoe + era * 400
  let doy := doe - (365 * yoe + yoe / 4 - yoe / 100)
  let mp := (5 * doy + 2) / 153
  let d := doy - (153 * mp + 2) / 5 + 1
  let m := if mp < 10 then mp + 3 else mp - 9
  { year := if m ≤ 2 then y + 1 else y, month := m.toNat, day := d.toNat }

/-- pandas `Timestamp` is bounded (1677-09-21 .. 2262-04-11); out-of-range
results coerce to NaT.  We check the year conservatively: the two boundary
years never arise in this development. -/
def pandasInRange (d : Date) : Bool :=
  1678 ≤ d.year && d.year ≤ 2261

def mkDate? (y : Int) (m d : Nat) : Option Date :=
  if 1 ≤ m && m ≤ 12 && 1 ≤ d && d ≤ daysInMonth y m && pandasInRange ⟨y, m, d⟩ then
    some ⟨y, m, d⟩
  else none

/-- Two-digit years parse as 2000–2068 / 1969–1999 (pandas `%y` pivot). -/
def fixYear (y : Nat) : Int :=
  if y < 100 then (if y ≤ 68 then 2000 + y else 1900 + y) else y

/-- Model of `pd.to_datetime(s, errors="coerce", dayfirst=True)` on a text
cell, for the date shapes this repository's inputs use: three numeric
fields separated by `-` or `/`.  A four-digit first field is ISO
year-month-day (pandas ignores `dayfirst` for ISO); otherwise the fields
are read day-first, falling back to month-first when day-first is not a
valid date (pandas swaps rather than failing).  Anything else coerces to
NaT (`none`). -/
def parseDateString (s : String) : Option Date :=
  match splitOn (strip s) (fun c => c = '-' || c = '/') with
  | [fa, fb, fc] =>
    match parseNat? fa, parseNat? fb, parseNat? fc with
    | some a, some b, some c =>
      if 4 ≤ fa.length then
        mkDate? a b c
      else
        match mkDate? (fixYear c) b a with
        | some d => some d
        | none => mkDate? (fixYear c) a b
    | _, _, _ => none
  | _ => none

def nsPerDay : Int := 86400000000000

/-- Model of `pd.to_datetime(x, errors="coerce", dayfirst=True)` per cell:
text cells go through the text parser; numeric cells are interpreted as
nanoseconds since the unix epoch (pandas' default unit for numeric input);
NaN coerces to NaT. -/
def parseTextCell : Cell → Option Date
  | .str s => parseDateString s
  | .num v =>
    if v.natAbs < 9223372036854775808 then
      let d := civilFromDays (Int.fdiv v nsPerDay)
      if pandasInRange d then some d else none
    else none
  | .nan => none

/-- Model of `pd.to_datetime(x, errors="coerce", unit="D", origin="1899-12-30")`
per cell: a numeric cell is a day-count offset from 1899-12-30 (the legacy
spreadsheet serial-date convention); 1899-12-30 is day -25569 relative to
the unix epoch.  Non-numeric cells coerce to NaT. -/
def parseSerialCell : Cell → Option Date
  | .num v =>
    let d := civilFromDays (v - 25569)
    if pandasInRange d then some d else none
  | _ => none

/-- Model of `pd.api.types.is_numeric_dtype`: the column carries a numeric
dtype exactly when no cell is text. -/
def isNumericCol (col : List Cell) : Bool :=
  col.all (fun c => match c with | .str _ => false | _ => true)

/-- The shared date-column parse of `transform_style_units` and
`transform_vspink` (src/Savage.py lines 37-39 and 148-151, src/app.py
lines 22-26): day-first text parse first; if that yields NaT for every
cell and the column's dtype is numeric, re-parse every cell as an Excel
serial day-count from 1899-12-30. -/
def parseDateColumn (col : List Cell) : List (Option Date) :=
  let dt := col.map parseTextCell
  if dt.all (fun o => o.isNone) && isNumericCol col then
    col.map parseSerialCell
  else dt

/-- `month_map` from the source: calendar month number to abbreviation. -/
def monthMap (m : Nat) : Option String :=
  (([(1, "JAN"), (2, "FEB"), (3, "MAR"), (4, "APR"), (5, "MAY"), (6, "JUNE"),
     (7, "JULY"), (8, "AUG"), (9, "SEP"), (10, "OCT"), (11, "NOV"),
     (12, "DEC")] : List (Nat × String))).lookup m

/-- `month_order` from the source. -/
def monthOrder : List String :=
  ["JAN", "FEB", "MAR", "APR", "MAY", "JUNE", "JULY", "AUG", "SEP", "OCT",
   "NOV", "DEC"]

/-- Header normalization of the Savage Buy transforms:
`df.columns.str.replace(r'[\n"]+', ' ', regex=True).str.strip()` —
collapse every run of newlines/double quotes to one space, then trim. -/
def collapseRuns : List Char → Bool → List Char
  | [], _ => []
  | c :: cs, inRun =>
    if c = '\n' || c = '"' then
      if inRun then collapseRuns cs true else ' ' :: collapseRuns cs true
    else c :: collapseRuns cs false

def normalizeHeader (s : String) : String :=
  strip (String.mk (collapseRuns s.data false))

/-- First index of `c` in `l` (pandas column lookup by name). -/
def findIdxD : List String → String → Option Nat
  | [], _ => none
  | x :: xs, c => if x = c then some 0 else (findIdxD xs c).map (· + 1)

/-- The cells of the column named `c` (rows shorter than the header read
as NaN).  Callers only use this on columns present in `cols`; the absent
case keeps the row count. -/
def colCells (cols : List String) (rows : List (List Cell)) (c : String) :
    List Cell :=
  match findIdxD cols c with
  | some i => rows.map (fun r => r.getD i Cell.nan)
  | none => rows.map (fun _ => Cell.nan)

/-- pandas `sum` over the cells of one group (`skipna=True`, `min_count=0`):
NaN cells are skipped, an empty group sums to 0, numeric cells add, and an
object-dtype group of texts concatenates (pandas string sum).  A group
mixing surviving text and numeric cells makes pandas raise `TypeError`;
no claim exercises that case, and it is represented as NaN here. -/
def sumCells (cs : List Cell) : Cell :=
  let vs := cs.filter (fun c => decide (c ≠ Cell.nan))
  if vs = [] then Cell.num 0
  else if vs.all (fun c => match c with | .num _ => true | _ => false) then
    Cell.num (vs.foldl (fun a c => a + (match c with | .num v => v | _ => 0)) 0)
  else if vs.all (fun c => match c with | .str _ => true | _ => false) then
    Cell.str ((vs.map (fun c => match c with | .str s => s | _ => "")).foldl
      (· ++ ·) "")
  else Cell.nan

/-- `df[names]` / `df.loc[:, names]`: reindex a table to the given column
names (cells of columns absent from the source read as NaN, as
`pd.concat` alignment produces). -/
def Table.select (tb : Table) (names : List String) : Table :=
  { cols := names
    rows := tb.rows.map (fun r =>
      names.map (fun c =>
        match findIdxD tb.cols c with
        | some i => r.getD i Cell.nan
        | none => Cell.nan)) }

/-- The final month reorder shared by `transform_style_units` and
`transform_vspink` (src/Savage.py lines 60-64 and 173-176): non-month
columns in their current order, then the months of `month_order` that are
present. -/
def reorderMonths (tb : Table) : Table :=
  tb.select
    (tb.cols.filter (fun c => decide (c ∉ monthOrder)) ++
      monthOrder.filter (fun m => decide (m ∈ tb.cols)))

/-- Cell of the output row whose first column holds `g`, at column `c`. -/
def Table.lookupCell (tb : Table) (g : Cell) (c : String) : Cell :=
  match tb.rows.find? (fun r => decide (r.getD 0 Cell.nan = g)),
      findIdxD tb.cols c with
  | some r, some j => r.getD j Cell.nan
  | _, _ => Cell.nan

/-- One working row of the Savage Buy pipeline after the column subset:
the `DESIGN STYLE` cell, the `GLOBAL UNITS` cell and the derived `MONTH`. -/
structure SRow where
  style : Cell
  unit : Cell
  month : Option String
deriving DecidableEq, Repr

/-- Zip the three working columns into rows (columns of a DataFrame all
have the row count, so no truncation occurs in practice). -/
def mkRows : List Cell → List Cell → List (Option String) → List SRow
  | s :: ss, u :: us, m :: ms => ⟨s, u, m⟩ :: mkRows ss us ms
  | _, _, _ => []

namespace Savage

/-- `required` of `transform_style_units` (src/Savage.py line 29). -/
def required : List String := ["DESIGN STYLE", "XFD", "GLOBAL UNITS"]

/-- Normalized headers (src/Savage.py line 26). -/
def normCols (t : Table) : List String := t.cols.map normalizeHeader

/-- `[c for c in required if c not in df.columns]` (src/Savage.py line 30). -/
def missingCols (t : Table) : List String :=
  required.filter (fun c => decide (c ∉ normCols t))

def styleCol (t : Table) : List Cell := colCells (normCols t) t.rows "DESIGN STYLE"

def xfdCol (t : Table) : List Cell := colCells (normCols t) t.rows "XFD"

def unitsCol (t : Table) : List Cell := colCells (normCols t) t.rows "GLOBAL UNITS"

/-- `df["MONTH"] = df["XFD_dt"].dt.month.map(month_map)` (lines 37-46). -/
def monthsCol (t : Table) : List (Option String) :=
  (parseDateColumn (xfdCol t)).map (fun od => od.bind (fun d => monthMap d.month))

/-- `df = df[df["MONTH"].notna()]` (line 49): the rows surviving the
month filter. -/
def survivors (t : Table) : List SRow :=
  (mkRows (styleCol t) (unitsCol t) (monthsCol t)).filter
    (fun r => r.month.isSome)

/-- `pivot_table`'s internal groupby drops rows whose index key
(`DESIGN STYLE`) is NaN (pandas groupby `dropna=True` default). -/
def keptOf (rs : List SRow) : List SRow :=
  rs.filter (fun r => decide (r.style ≠ Cell.nan))

/-- The distinct index keys of the pivot.  `pivot_table` sorts its group
keys; no claim depends on row order or on the pre-reorder column order,
so the order in which duplicates are eliminated is immaterial and
`List.dedup` is used. -/
def groupsOf (rs : List SRow) : List Cell :=
  ((keptOf rs).map (·.style)).dedup

/-- The distinct `MONTH` values of the pivot columns (every surviving
row's month is `some _`). -/
def monthsPOf (rs : List SRow) : List String :=
  ((keptOf rs).map (fun r => r.month.getD "")).dedup

/-- One aggregated pivot cell: the summed `GLOBAL UNITS` of the rows with
this style and month.  `fill_value=0` is the empty-sum case of
`sumCells`. -/
def cellOf (rs : List SRow) (g : Cell) (m : String) : Cell :=
  sumCells (((keptOf rs).filter
    (fun r => decide (r.style = g ∧ r.month = some m))).map (·.unit))

/-- `df.pivot_table(index="DESIGN STYLE", columns="MONTH",
values="GLOBAL UNITS", aggfunc="sum", fill_value=0).reset_index()`
(src/Savage.py lines 52-58). -/
def pivotOfRows (rs : List SRow) : Table :=
  { cols := "DESIGN STYLE" :: monthsPOf rs
    rows := (groupsOf rs).map (fun g =>
      g :: (monthsPOf rs).map (fun m => cellOf rs g m)) }

/-- Pivot followed by the month reorder (lines 52-64). -/
def outputOfRows (rs : List SRow) : Table := reorderMonths (pivotOfRows rs)

def output (t : Table) : Table := outputOfRows (survivors t)

def groups (t : Table) : List Cell := groupsOf (survivors t)

def monthsPresent (t : Table) : List String := monthsPOf (survivors t)

/-- `transform_style_units` of src/Savage.py (lines 19-66), from the
normalized table on: header normalization, required-column check (raising
with the full missing list), date parse with serial fallback, month
filter, pivot with zero fill, month reorder. -/
def transform_style_units (t : Table) : Except Err Table :=
  if missingCols t = [] then .ok (output t)
  else .error (.missingCols "Missing required columns for Savage Buy file"
    (missingCols t))

/-- Overwrite the `GLOBAL UNITS` cell of row `i` (used to state that a
dropped row's measure value cannot influence the output). -/
def setMeasure (t : Table) (i : Nat) (v : Cell) : Table :=
  match findIdxD (normCols t) "GLOBAL UNITS" with
  | some j => { t with rows := t.rows.modify (fun r => r.set j v) i }
  | none => t

end Savage

namespace App

/-- `transform_style_units` of src/app.py (lines 5-54).  Unlike the
Savage.py version it performs no missing-column check: line 19 silently
subsets to the required columns that are present, and a missing column
only surfaces later as a `KeyError` naming that single column —
`df["XFD"]` at line 22, or the pivot's index/values lookup at lines
39-45 (pandas raises a single-name KeyError there; which of the two
remaining names it cites is immaterial to the claims).  When all three
columns are present the pipeline is the same as src/Savage.py's. -/
def transform_style_units (t : Table) : Except Err Table :=
  let cols := t.cols.map normalizeHeader
  if "XFD" ∈ cols then
    if "DESIGN STYLE" ∈ cols then
      if "GLOBAL UNITS" ∈ cols then .ok (Savage.output t)
      else .error (.keyError "GLOBAL UNITS")
    else .error (.keyError "DESIGN STYLE")
  else .error (.keyError "XFD")

end App

namespace PLM

/-- Sheet allow-list of `transform_plm_to_mcu` (src/Savage.py lines 75-79). -/
def expected_sheet_names : List String :=
  ["Fabrics", "Strip Cut", "Laces", "Embriodery/Printing", "Elastics",
   "Tapes", "Trim/Component", "Label/ Transfer", "Foam Cup", "Packing Trim"]

/-- Fixed MCU schema columns (src/Savage.py lines 81-85). -/
def base_cols : List String :=
  ["Sheet Names", "Season", "Style", "BOM", "Cycle", "Article",
   "Type of Const 1", "Supplier", "UOM", "Composition", "Measurement",
   "Supplier Country", "Avg YY"]

/-- Per-sheet processing of `transform_plm_to_mcu` (src/Savage.py lines
92-111): strip headers, drop columns whose stripped lower-cased name
starts with "sum", put a `Sheet Names` column first, append every absent
schema column filled with the empty string, then keep schema columns
followed by the remaining (dynamic) columns. -/
def processSheet (name : String) (df : Table) : Table :=
  let cols := df.cols.map strip
  let keepNames := cols.filter (fun c => !(startsWith (lowerStr (strip c)) "sum"))
  let df2 := Table.select ⟨cols, df.rows⟩ keepNames
  let df3 : Table :=
    { cols := "Sheet Names" :: df2.cols
      rows := df2.rows.map (fun r => Cell.str name :: r) }
  let missing := base_cols.filter (fun c => decide (c ∉ df3.cols))
  let df4 : Table :=
    { cols := df3.cols ++ missing
      rows := df3.rows.map (fun r => r ++ missing.map (fun _ => Cell.str "")) }
  let dynamic := df4.cols.filter (fun c => decide (c ∉ base_cols))
  df4.select (base_cols ++ dynamic)

/-- `sheet in xls.sheet_names` / `pd.read_excel(xls, sheet_name=sheet)`:
the workbook as a name-to-table association. -/
def lookupSheet (sheets : List (String × Table)) (name : String) :
    Option Table :=
  (sheets.find? (fun p => decide (p.1 = name))).map (·.2)

/-- `transform_plm_to_mcu` (src/Savage.py lines 69-126): process each
allow-listed sheet present in the workbook in allow-list order,
concatenate them (column union, absent cells NaN), and order the result
as schema columns then dynamic columns.  With no allow-listed sheet
present, a header-only table with the schema columns. -/
def transform_plm_to_mcu (sheets : List (String × Table)) : Table :=
  let collected := expected_sheet_names.filterMap
    (fun s => (lookupSheet sheets s).map (fun df => processSheet s df))
  if collected = [] then ⟨base_cols, []⟩
  else
    let allCols := (collected.flatMap (fun tb => tb.cols)).dedup
    let combined : Table :=
      ⟨allCols, collected.flatMap (fun tb => (tb.select allCols).rows)⟩
    let dynamic := allCols.filter (fun c => decide (c ∉ base_cols))
    combined.select (base_cols ++ dynamic)

end PLM

/-- One working row of the VSPINK pipeline: the tuple of identity
(static metadata) cells, the `Qty (m)` cell and the derived `MONTH`. -/
structure VRow where
  tuple : List Cell
  qty : Cell
  month : Option String
deriving DecidableEq, Repr

def mkVRows : List (List Cell) → List Cell → List (Option String) → List VRow
  | s :: ss, u :: us, m :: ms => ⟨s, u, m⟩ :: mkVRows ss us ms
  | _, _, _ => []

/-- One row of the intermediate
`df.groupby(group_cols, dropna=False, as_index=False)["Qty (m)"].sum()`. -/
structure GRow where
  tuple : List Cell
  month : Option String
  qty : Cell
deriving DecidableEq, Repr

namespace VSPink

/-- `static_cols` (src/Savage.py lines 137-141). -/
def static_cols : List String :=
  ["Customer", "Supplier", "Supplier COO", "Production Plant (region)",
   "Program", "Construction", "Article",
   "# of repeats in Article ( optional)", "Composition",
   "If Yarn Dyed/ Piece Dyed"]

/-- `required_cols = static_cols + ["Qty (m)", "EX-mill"]` (line 142). -/
def required : List String := static_cols ++ ["Qty (m)", "EX-mill"]

/-- `df.columns.str.strip()` (line 135). -/
def normCols (t : Table) : List String := t.cols.map strip

def missingCols (t : Table) : List String :=
  required.filter (fun c => decide (c ∉ normCols t))

def exMillCol (t : Table) : List Cell := colCells (normCols t) t.rows "EX-mill"

def qtyCol (t : Table) : List Cell := colCells (normCols t) t.rows "Qty (m)"

/-- The identity tuple of each row, in `static_cols` order. -/
def tuples (t : Table) : List (List Cell) :=
  t.rows.map (fun r => static_cols.map (fun c =>
    match findIdxD (normCols t) c with
    | some i => r.getD i Cell.nan
    | none => Cell.nan))

def monthsCol (t : Table) : List (Option String) :=
  (parseDateColumn (exMillCol t)).map (fun od => od.bind (fun d => monthMap d.month))

/-- `df = df[df["MONTH"].notna()]` (line 158). -/
def survivors (t : Table) : List VRow :=
  (mkVRows (tuples t) (qtyCol t) (monthsCol t)).filter (fun r => r.month.isSome)

/-- Keys of `df.groupby(group_cols, dropna=False, as_index=False)`
(line 162): `dropna=False`, so tuples containing NaN are kept here. -/
def groupKeys (t : Table) : List (List Cell × Option String) :=
  ((survivors t).map (fun r => (r.tuple, r.month))).dedup

/-- The grouped intermediate frame of line 162, one row per key with the
summed `Qty (m)`. -/
def grouped (t : Table) : List GRow :=
  (groupKeys t).map (fun k =>
    { tuple := k.1, month := k.2
      qty := sumCells (((survivors t).filter
        (fun r => decide ((r.tuple, r.month) = k))).map (·.qty)) })

/-- `grouped.pivot_table(index=static_cols, ...)` (lines 165-171):
pandas `pivot_table` groups its index keys with groupby's default
`dropna=True`, so every grouped row whose identity tuple contains NaN is
dropped here — despite the `dropna=False` of the preceding groupby. -/
def keptG (t : Table) : List GRow :=
  (grouped t).filter (fun g => decide (Cell.nan ∉ g.tuple))

def vGroups (t : Table) : List (List Cell) :=
  ((keptG t).map (·.tuple)).dedup

def vMonths (t : Table) : List String :=
  ((keptG t).map (fun g => g.month.getD "")).dedup

def vCell (t : Table) (tup : List Cell) (m : String) : Cell :=
  sumCells (((keptG t).filter
    (fun g => decide (g.tuple = tup ∧ g.month = some m))).map (·.qty))

/-- The pivot of lines 165-171 after `reset_index()`: identity columns
then month columns. -/
def pivotTable (t : Table) : Table :=
  { cols := static_cols ++ vMonths t
    rows := (vGroups t).map (fun tup =>
      tup ++ (vMonths t).map (fun m => vCell t tup m)) }

def output (t : Table) : Table := reorderMonths (pivotTable t)

/-- `transform_vspink` (src/Savage.py lines 132-178). -/
def transform_vspink (t : Table) : Except Err Table :=
  if missingCols t = [] then .ok (output t)
  else .error (.missingCols "Missing required columns for VSPINK"
    (missingCols t))

/-- Overwrite the `Qty (m)` cell of row `i` (used to state that a
dropped row's measure value cannot influence the output). -/
def setQty (t : Table) (i : Nat) (v : Cell) : Table :=
  match findIdxD (normCols t) "Qty (m)" with
  | some j => { t with rows := t.rows.modify (fun r => r.set j v) i }
  | none => t

end VSPink

/-! ### Helper lemmas -/

theorem findIdxD_lt_length {l : List String} {c : String} {j : Nat}
    (h : findIdxD l c = some j) : j < l.length := by
  induction l generalizing j with
  | nil => simp [findIdxD] at h
  | cons x xs ih =>
    unfold findIdxD at h
    by_cases hx : x = c
    · rw [if_pos hx] at h
      injection h with h
      simp only [List.length_cons]
      omega
    · rw [if_neg hx, Option.map_eq_some'] at h
      obtain ⟨j', hj', hj⟩ := h
      have := ih hj'
      simp only [List.length_cons]
      omega

theorem findIdxD_getD {l : List String} {c : String} {j : Nat} (d : String)
    (h : findIdxD l c = some j) : l.getD j d = c := by
  induction l generalizing j with
  | nil => simp [findIdxD] at h
  | cons x xs ih =>
    unfold findIdxD at h
    by_cases hx : x = c
    · rw [if_pos hx] at h
      injection h with h
      subst h
      simpa using hx
    · rw [if_neg hx, Option.map_eq_some'] at h
      obtain ⟨j', hj', hj⟩ := h
      subst hj
      simpa using ih hj'

theorem findIdxD_isSome_of_mem {l : List String} {c : String} (h : c ∈ l) :
    ∃ j, findIdxD l c = some j := by
  induction l with
  | nil => cases h
  | cons x xs ih =>
    unfold findIdxD
    by_cases hx : x = c
    · exact ⟨0, by rw [if_pos hx]⟩
    · rw [List.mem_cons] at h
      rcases h with h | h
      · exact absurd h.symm hx
      · obtain ⟨j, hj⟩ := ih h
        exact ⟨j + 1, by rw [if_neg hx, hj]; rfl⟩

theorem getD_map_of_lt {α β : Type} (f : α → β) (l : List α) {j : Nat}
    (h : j < l.length) (d : β) (d' : α) :
    (l.map f).getD j d = f (l.getD j d') := by
  rw [List.getD_eq_getElem?_getD, List.getD_eq_getElem?_getD,
    List.getElem?_map, List.getElem?_eq_getElem h]
  rfl

theorem find?_decide_eq {α : Type} [DecidableEq α] {g : α} {l : List α}
    (h : g ∈ l) : l.find? (fun x => decide (x = g)) = some g := by
  induction l with
  | nil => cases h
  | cons a as ih =>
    rw [List.find?_cons]
    by_cases ha : a = g
    · simp [ha]
    · rw [List.mem_cons] at h
      rcases h with h | h
      · exact absurd h.symm ha
      · have hd : decide (a = g) = false := by simp [ha]
        rw [hd]
        exact ih h

theorem find?_map_getD0 {β : Type} (G : List Cell) (selRow : Cell → β)
    (val : β → Cell) (hsel : ∀ x, val (selRow x) = x) {g : Cell}
    (hg : g ∈ G) :
    (G.map selRow).find? (fun r => decide (val r = g)) = some (selRow g) := by
  induction G with
  | nil => cases hg
  | cons a as ih =>
    rw [List.map_cons, List.find?_cons]
    by_cases ha : a = g
    · simp [hsel, ha]
    · rw [List.mem_cons] at hg
      rcases hg with hg | hg
      · exact absurd hg.symm ha
      · have hd : decide (val (selRow a) = g) = false := by simp [hsel, ha]
        rw [hd]
        exact ih hg

theorem map_modify_eq {α β : Type} (f : α → α) (g : α → β)
    (hfix : ∀ a, g (f a) = g a) (l : List α) (i : Nat) :
    (List.modify f i l).map g = l.map g := by
  apply List.ext_getElem?
  intro n
  rw [List.getElem?_map, List.getElem?_map, List.getElem?_modify]
  cases l[n]? with
  | none => rfl
  | some a =>
    show (Option.map g (Option.map _ (some a))) = _
    simp only [Option.map_some']
    split <;> simp [hfix]

theorem getD_map_modify_ne {α β : Type} (f : α → α) (g : α → β) (l : List α)
    (i p : Nat) (hne : p ≠ i) (d : β) :
    ((List.modify f i l).map g).getD p d = (l.map g).getD p d := by
  rw [List.getD_eq_getElem?_getD, List.getD_eq_getElem?_getD,
    List.getElem?_map, List.getElem?_map, List.getElem?_modify]
  cases l[p]? with
  | none => rfl
  | some a =>
    show (Option.map g (Option.map _ (some a))).getD d = _
    simp only [Option.map_some']
    rw [if_neg (fun h => hne h.symm)]

theorem monthMap_mem_monthOrder {n : Nat} {s : String}
    (h : monthMap n = some s) : s ∈ monthOrder := by
  simp only [monthMap, List.lookup] at h
  repeat' split at h
  all_goals simp_all [monthOrder]

theorem mkRows_month_mem {s u : List Cell} {m : List (Option String)}
    {r : SRow} (h : r ∈ mkRows s u m) : r.month ∈ m := by
  induction s generalizing u m with
  | nil => simp [mkRows] at h
  | cons a as ih =>
    cases u with
    | nil => simp [mkRows] at h
    | cons b bs =>
      cases m with
      | nil => simp [mkRows] at h
      | cons c cs =>
        simp only [mkRows, List.mem_cons] at h
        rcases h with h | h
        · subst h
          exact List.mem_cons_self _ _
        · exact List.mem_cons_of_mem _ (ih h)

theorem mkVRows_month_mem {s : List (List Cell)} {u : List Cell}
    {m : List (Option String)} {r : VRow} (h : r ∈ mkVRows s u m) :
    r.month ∈ m := by
  induction s generalizing u m with
  | nil => simp [mkVRows] at h
  | cons a as ih =>
    cases u with
    | nil => simp [mkVRows] at h
    | cons b bs =>
      cases m with
      | nil => simp [mkVRows] at h
      | cons c cs =>
        simp only [mkVRows, List.mem_cons] at h
        rcases h with h | h
        · subst h
          exact List.mem_cons_self _ _
        · exact List.mem_cons_of_mem _ (ih h)

/-- The months of the Savage pivot columns all come from `month_map`, so
they lie in `month_order`. -/
theorem Savage.monthsPresent_mem_monthOrder (t : Table) :
    ∀ x ∈ Savage.monthsPresent t, x ∈ monthOrder := by
  intro x hx
  unfold Savage.monthsPresent Savage.monthsPOf at hx
  rw [List.mem_dedup, List.mem_map] at hx
  obtain ⟨r, hr, hval⟩ := hx
  unfold Savage.keptOf at hr
  rw [List.mem_filter] at hr
  obtain ⟨hr, -⟩ := hr
  unfold Savage.survivors at hr
  rw [List.mem_filter] at hr
  obtain ⟨hr, hsome⟩ := hr
  have hm := mkRows_month_mem hr
  unfold Savage.monthsCol at hm
  rw [List.mem_map] at hm
  obtain ⟨od, -, hod⟩ := hm
  cases od with
  | none => rw [← hod] at hsome; simp at hsome
  | some d =>
    rw [← hod] at hsome hval
    simp only [Option.some_bind] at hsome hval
    cases hmm : monthMap d.month with
    | none => rw [hmm] at hsome; simp at hsome
    | some v =>
      rw [hmm] at hval
      simp only [Option.getD_some] at hval
      subst hval
      exact monthMap_mem_monthOrder hmm

/-- The value the final column-select of `transform_style_units` reads for
group row `g'` at output column `c`. -/
def Savage.colVal (rs : List SRow) (g' : Cell) (c : String) : Cell :=
  match findIdxD ("DESIGN STYLE" :: Savage.monthsPOf rs) c with
  | some i =>
    (g' :: (Savage.monthsPOf rs).map (fun m => Savage.cellOf rs g' m)).getD i
      Cell.nan
  | none => Cell.nan

/-- Non-month columns of the Savage pivot are exactly `DESIGN STYLE`. -/
theorem Savage.filter_nonMonth (rs : List SRow)
    (hMO : ∀ x ∈ Savage.monthsPOf rs, x ∈ monthOrder) :
    ("DESIGN STYLE" :: Savage.monthsPOf rs).filter
      (fun c => decide (c ∉ monthOrder)) = ["DESIGN STYLE"] := by
  have h1 : ("DESIGN STYLE" : String) ∉ monthOrder := by decide
  have h2 : (Savage.monthsPOf rs).filter (fun c => decide (c ∉ monthOrder)) =
      [] :=
    List.filter_eq_nil_iff.mpr (fun a ha => by simp [hMO a ha])
  rw [List.filter_cons, h2]
  simp [h1]

/-- Reading the reordered Savage output at group `g` and month column `m`
gives the aggregated pivot cell. -/
theorem Savage.lookupCell_outputOfRows (rs : List SRow)
    (hMO : ∀ x ∈ Savage.monthsPOf rs, x ∈ monthOrder)
    {g : Cell} (hg : g ∈ Savage.groupsOf rs) {m : String}
    (hm : m ∈ Savage.monthsPOf rs) :
    (Savage.outputOfRows rs).lookupCell g m = Savage.cellOf rs g m := by
  have hmMO : m ∈ monthOrder := hMO m hm
  have hmne : m ≠ "DESIGN STYLE" := by
    intro h
    subst h
    exact absurd hmMO (by decide)
  have hout : Savage.outputOfRows rs =
      ⟨"DESIGN STYLE" :: monthOrder.filter
          (fun c => decide (c ∈ "DESIGN STYLE" :: Savage.monthsPOf rs)),
        (Savage.groupsOf rs).map (fun g' =>
          ("DESIGN STYLE" :: monthOrder.filter
            (fun c => decide (c ∈ "DESIGN STYLE" :: Savage.monthsPOf rs))).map
            (Savage.colVal rs g'))⟩ := by
    unfold Savage.outputOfRows reorderMonths Table.select
    rw [show (Savage.pivotOfRows rs).cols.filter
        (fun c => decide (c ∉ monthOrder)) = ["DESIGN STYLE"] from
      Savage.filter_nonMonth rs hMO]
    rw [show (Savage.pivotOfRows rs).rows =
      (Savage.groupsOf rs).map (fun g' =>
        g' :: (Savage.monthsPOf rs).map (fun x => Savage.cellOf rs g' x))
      from rfl]
    rw [List.map_map]
    rfl
  set B := monthOrder.filter
    (fun c => decide (c ∈ "DESIGN STYLE" :: Savage.monthsPOf rs)) with hB
  have hmB : m ∈ B := by
    rw [hB]
    exact List.mem_filter.mpr ⟨hmMO, by simp [hm]⟩
  obtain ⟨jb, hjb⟩ := findIdxD_isSome_of_mem hmB
  have hcolIdx : findIdxD ("DESIGN STYLE" :: B) m = some (jb + 1) := by
    unfold findIdxD
    rw [if_neg (fun h => hmne h.symm), hjb]
    rfl
  have hsel : ∀ x : Cell,
      (("DESIGN STYLE" :: B).map (Savage.colVal rs x)).getD 0 Cell.nan = x := by
    intro x
    rw [List.map_cons, List.getD_cons_zero]
    unfold Savage.colVal
    rw [show findIdxD ("DESIGN STYLE" :: Savage.monthsPOf rs) "DESIGN STYLE" =
      some 0 from by unfold findIdxD; rw [if_pos rfl]]
    rfl
  have hfind : ((Savage.groupsOf rs).map (fun g' =>
      ("DESIGN STYLE" :: B).map (Savage.colVal rs g'))).find?
      (fun r => decide (r.getD 0 Cell.nan = g)) =
      some (("DESIGN STYLE" :: B).map (Savage.colVal rs g)) :=
    find?_map_getD0 _ _ (fun (r : List Cell) => r.getD 0 Cell.nan) hsel hg
  rw [hout]
  unfold Table.lookupCell
  rw [hfind, hcolIdx]
  rw [List.map_cons]
  show (Savage.colVal rs g "DESIGN STYLE" ::
    (B.map (Savage.colVal rs g))).getD (jb + 1) Cell.nan = Savage.cellOf rs g m
  rw [List.getD_cons_succ]
  rw [getD_map_of_lt (Savage.colVal rs g) B (findIdxD_lt_length hjb)
    Cell.nan ""]
  rw [findIdxD_getD "" hjb]
  unfold Savage.colVal
  obtain ⟨jp, hjp⟩ := findIdxD_isSome_of_mem hm
  have hidx : findIdxD ("DESIGN STYLE" :: Savage.monthsPOf rs) m =
      some (jp + 1) := by
    unfold findIdxD
    rw [if_neg (fun h => hmne h.symm), hjp]
    rfl
  rw [hidx]
  show (g :: (Savage.monthsPOf rs).map (fun x => Savage.cellOf rs g x)).getD
    (jp + 1) Cell.nan = Savage.cellOf rs g m
  rw [List.getD_cons_succ]
  rw [getD_map_of_lt _ _ (findIdxD_lt_length hjp) Cell.nan ""]
  rw [findIdxD_getD "" hjp]

theorem mkRows_filter_congr :
    ∀ (s : List Cell) (m : List (Option String)) (u u' : List Cell),
    u.length = u'.length →
    (∀ p, (m.getD p none).isSome = true →
      u.getD p Cell.nan = u'.getD p Cell.nan) →
    (mkRows s u m).filter (fun r => r.month.isSome) =
      (mkRows s u' m).filter (fun r => r.month.isSome) := by
  intro s
  induction s with
  | nil => intro m u u' _ _; rfl
  | cons a as ih =>
    intro m u u' hlen hpt
    cases u with
    | nil =>
      cases u' with
      | nil => rfl
      | cons b' bs' => simp at hlen
    | cons b bs =>
      cases u' with
      | nil => simp at hlen
      | cons b' bs' =>
        cases m with
        | nil => rfl
        | cons c cs =>
          have htl : ∀ p, (cs.getD p none).isSome = true →
              bs.getD p Cell.nan = bs'.getD p Cell.nan := by
            intro p hp
            have := hpt (p + 1)
            simpa using this (by simpa using hp)
          have hlen' : bs.length = bs'.length := by simpa using hlen
          cases hc : c with
          | none =>
            simp only [mkRows, List.filter_cons, hc, Option.isSome_none]
            exact ih cs bs bs' hlen' htl
          | some v =>
            have hb : b = b' := by
              have := hpt 0 (by simp [hc])
              simpa using this
            subst hb
            simp only [mkRows, List.filter_cons, hc, Option.isSome_some]
            rw [ih cs bs bs' hlen' htl]

/-! ### Lemmas about `setMeasure`: only the `GLOBAL UNITS` cell of the
chosen row changes. -/

theorem Savage.normCols_setMeasure (t : Table) (i : Nat) (v : Cell) :
    Savage.normCols (Savage.setMeasure t i v) = Savage.normCols t := by
  unfold Savage.setMeasure
  split <;> rfl

theorem Savage.missingCols_setMeasure (t : Table) (i : Nat) (v : Cell) :
    Savage.missingCols (Savage.setMeasure t i v) = Savage.missingCols t := by
  unfold Savage.missingCols
  rw [Savage.normCols_setMeasure]

theorem Savage.col_setMeasure_other (t : Table) (i : Nat) (v : Cell)
    (c : String) (hc : c ≠ "GLOBAL UNITS") :
    colCells (Savage.normCols t) (Savage.setMeasure t i v).rows c =
      colCells (Savage.normCols t) t.rows c := by
  cases hj : findIdxD (Savage.normCols t) "GLOBAL UNITS" with
  | none =>
    unfold Savage.setMeasure
    rw [hj]
  | some j =>
    have hrows : (Savage.setMeasure t i v).rows =
        List.modify (fun r => r.set j v) i t.rows := by
      unfold Savage.setMeasure
      rw [hj]
    rw [hrows]
    unfold colCells
    cases hk : findIdxD (Savage.normCols t) c with
    | none =>
      show (List.modify (fun r => r.set j v) i t.rows).map (fun _ => Cell.nan) =
        t.rows.map (fun _ => Cell.nan)
      exact map_modify_eq (fun r => r.set j v) (fun _ => Cell.nan)
        (fun _ => rfl) t.rows i
    | some k =>
      have hkj : j ≠ k := by
        intro h
        subst h
        have h1 := findIdxD_getD "" hj
        have h2 := findIdxD_getD "" hk
        rw [h1] at h2
        exact hc h2.symm
      show (List.modify (fun r => r.set j v) i t.rows).map
          (fun r => r.getD k Cell.nan) = t.rows.map (fun r => r.getD k Cell.nan)
      refine map_modify_eq _ _ (fun r => ?_) _ _
      rw [List.getD_eq_getElem?_getD, List.getD_eq_getElem?_getD,
        List.getElem?_set_ne hkj]

theorem Savage.styleCol_setMeasure (t : Table) (i : Nat) (v : Cell) :
    Savage.styleCol (Savage.setMeasure t i v) = Savage.styleCol t := by
  unfold Savage.styleCol
  rw [Savage.normCols_setMeasure]
  exact Savage.col_setMeasure_other t i v _ (by decide)

theorem Savage.xfdCol_setMeasure (t : Table) (i : Nat) (v : Cell) :
    Savage.xfdCol (Savage.setMeasure t i v) = Savage.xfdCol t := by
  unfold Savage.xfdCol
  rw [Savage.normCols_setMeasure]
  exact Savage.col_setMeasure_other t i v _ (by decide)

theorem Savage.monthsCol_setMeasure (t : Table) (i : Nat) (v : Cell) :
    Savage.monthsCol (Savage.setMeasure t i v) = Savage.monthsCol t := by
  unfold Savage.monthsCol
  rw [Savage.xfdCol_setMeasure]

theorem Savage.unitsCol_setMeasure_getD (t : Table) (i : Nat) (v : Cell)
    (p : Nat) (hp : p ≠ i) :
    (Savage.unitsCol (Savage.setMeasure t i v)).getD p Cell.nan =
      (Savage.unitsCol t).getD p Cell.nan := by
  unfold Savage.unitsCol
  rw [Savage.normCols_setMeasure]
  cases hj : findIdxD (Savage.normCols t) "GLOBAL UNITS" with
  | none =>
    unfold Savage.setMeasure
    rw [hj]
  | some j =>
    have hrows : (Savage.setMeasure t i v).rows =
        List.modify (fun r => r.set j v) i t.rows := by
      unfold Savage.setMeasure
      rw [hj]
    rw [hrows]
    unfold colCells
    rw [hj]
    exact getD_map_modify_ne _ _ _ _ _ hp _

theorem Savage.unitsCol_setMeasure_length (t : Table) (i : Nat) (v : Cell) :
    (Savage.unitsCol (Savage.setMeasure t i v)).length =
      (Savage.unitsCol t).length := by
  unfold Savage.unitsCol
  rw [Savage.normCols_setMeasure]
  cases hj : findIdxD (Savage.normCols t) "GLOBAL UNITS" with
  | none =>
    unfold Savage.setMeasure
    rw [hj]
  | some j =>
    have hrows : (Savage.setMeasure t i v).rows =
        List.modify (fun r => r.set j v) i t.rows := by
      unfold Savage.setMeasure
      rw [hj]
    rw [hrows]
    unfold colCells
    rw [hj]
    rw [List.length_map, List.length_map, List.length_modify]

theorem Savage.survivors_setMeasure (t : Table) (i : Nat) (v w : Cell)
    (hnone : (Savage.monthsCol t).getD i none = none) :
    Savage.survivors (Savage.setMeasure t i v) =
      Savage.survivors (Savage.setMeasure t i w) := by
  unfold Savage.survivors
  rw [Savage.styleCol_setMeasure, Savage.styleCol_setMeasure,
    Savage.monthsCol_setMeasure, Savage.monthsCol_setMeasure]
  apply mkRows_filter_congr
  · rw [Savage.unitsCol_setMeasure_length, Savage.unitsCol_setMeasure_length]
  · intro p hp
    by_cases hpi : p = i
    · subst hpi
      rw [hnone] at hp
      simp at hp
    · rw [Savage.unitsCol_setMeasure_getD t i v p hpi,
        Savage.unitsCol_setMeasure_getD t i w p hpi]

/-! ### Lemmas about `setQty`: only the `Qty (m)` cell of the chosen
VSPINK row changes. -/

theorem VSPink.normCols_setQty (t : Table) (i : Nat) (v : Cell) :
    VSPink.normCols (VSPink.setQty t i v) = VSPink.normCols t := by
  unfold VSPink.setQty
  split <;> rfl

theorem VSPink.missingCols_setQty (t : Table) (i : Nat) (v : Cell) :
    VSPink.missingCols (VSPink.setQty t i v) = VSPink.missingCols t := by
  unfold VSPink.missingCols
  rw [VSPink.normCols_setQty]

theorem VSPink.col_setQty_other (t : Table) (i : Nat) (v : Cell)
    (c : String) (hc : c ≠ "Qty (m)") :
    colCells (VSPink.normCols t) (VSPink.setQty t i v).rows c =
      colCells (VSPink.normCols t) t.rows c := by
  cases hj : findIdxD (VSPink.normCols t) "Qty (m)" with
  | none =>
    unfold VSPink.setQty
    rw [hj]
  | some j =>
    have hrows : (VSPink.setQty t i v).rows =
        List.modify (fun r => r.set j v) i t.rows := by
      unfold VSPink.setQty
      rw [hj]
    rw [hrows]
    unfold colCells
    cases hk : findIdxD (VSPink.normCols t) c with
    | none =>
      show (List.modify (fun r => r.set j v) i t.rows).map (fun _ => Cell.nan) =
        t.rows.map (fun _ => Cell.nan)
      exact map_modify_eq (fun r => r.set j v) (fun _ => Cell.nan)
        (fun _ => rfl) t.rows i
    | some k =>
      have hkj : j ≠ k := by
        intro h
        subst h
        have h1 := findIdxD_getD "" hj
        have h2 := findIdxD_getD "" hk
        rw [h1] at h2
        exact hc h2.symm
      show (List.modify (fun r => r.set j v) i t.rows).map
          (fun r => r.getD k Cell.nan) = t.rows.map (fun r => r.getD k Cell.nan)
      refine map_modify_eq _ _ (fun r => ?_) _ _
      rw [List.getD_eq_getElem?_getD, List.getD_eq_getElem?_getD,
        List.getElem?_set_ne hkj]

theorem VSPink.exMillCol_setQty (t : Table) (i : Nat) (v : Cell) :
    VSPink.exMillCol (VSPink.setQty t i v) = VSPink.exMillCol t := by
  unfold VSPink.exMillCol
  rw [VSPink.normCols_setQty]
  exact VSPink.col_setQty_other t i v _ (by decide)

theorem VSPink.monthsCol_setQty (t : Table) (i : Nat) (v : Cell) :
    VSPink.monthsCol (VSPink.setQty t i v) = VSPink.monthsCol t := by
  unfold VSPink.monthsCol
  rw [VSPink.exMillCol_setQty]

theorem VSPink.tuples_setQty (t : Table) (i : Nat) (v : Cell) :
    VSPink.tuples (VSPink.setQty t i v) = VSPink.tuples t := by
  have hstat : ∀ c ∈ VSPink.static_cols, c ≠ "Qty (m)" := by decide
  cases hj : findIdxD (VSPink.normCols t) "Qty (m)" with
  | none =>
    unfold VSPink.setQty
    rw [hj]
  | some j =>
    have hrows : (VSPink.setQty t i v).rows =
        List.modify (fun r => r.set j v) i t.rows := by
      unfold VSPink.setQty
      rw [hj]
    unfold VSPink.tuples
    simp only [VSPink.normCols_setQty]
    rw [hrows]
    refine map_modify_eq _ _ (fun r => ?_) _ _
    apply List.map_congr_left
    intro c hcmem
    cases hk : findIdxD (VSPink.normCols t) c with
    | none => rfl
    | some k =>
      have hkj : j ≠ k := by
        intro h
        subst h
        have h1 := findIdxD_getD "" hj
        have h2 := findIdxD_getD "" hk
        rw [h1] at h2
        exact hstat c hcmem h2.symm
      show (r.set j v).getD k Cell.nan = r.getD k Cell.nan
      rw [List.getD_eq_getElem?_getD, List.getD_eq_getElem?_getD,
        List.getElem?_set_ne hkj]

theorem VSPink.qtyCol_setQty_getD (t : Table) (i : Nat) (v : Cell)
    (p : Nat) (hp : p ≠ i) :
    (VSPink.qtyCol (VSPink.setQty t i v)).getD p Cell.nan =
      (VSPink.qtyCol t).getD p Cell.nan := by
  unfold VSPink.qtyCol
  rw [VSPink.normCols_setQty]
  cases hj : findIdxD (VSPink.normCols t) "Qty (m)" with
  | none =>
    unfold VSPink.setQty
    rw [hj]
  | some j =>
    have hrows : (VSPink.setQty t i v).rows =
        List.modify (fun r => r.set j v) i t.rows := by
      unfold VSPink.setQty
      rw [hj]
    rw [hrows]
    unfold colCells
    rw [hj]
    exact getD_map_modify_ne _ _ _ _ _ hp _

theorem VSPink.qtyCol_setQty_length (t : Table) (i : Nat) (v : Cell) :
    (VSPink.qtyCol (VSPink.setQty t i v)).length =
      (VSPink.qtyCol t).length := by
  unfold VSPink.qtyCol
  rw [VSPink.normCols_setQty]
  cases hj : findIdxD (VSPink.normCols t) "Qty (m)" with
  | none =>
    unfold VSPink.setQty
    rw [hj]
  | some j =>
    have hrows : (VSPink.setQty t i v).rows =
        List.modify (fun r => r.set j v) i t.rows := by
      unfold VSPink.setQty
      rw [hj]
    rw [hrows]
    unfold colCells
    rw [hj]
    rw [List.length_map, List.length_map, List.length_modify]

theorem mkVRows_filter_congr :
    ∀ (s : List (List Cell)) (m : List (Option String)) (u u' : List Cell),
    u.length = u'.length →
    (∀ p, (m.getD p none).isSome = true →
      u.getD p Cell.nan = u'.getD p Cell.nan) →
    (mkVRows s u m).filter (fun r => r.month.isSome) =
      (mkVRows s u' m).filter (fun r => r.month.isSome) := by
  intro s
  induction s with
  | nil => intro m u u' _ _; rfl
  | cons a as ih =>
    intro m u u' hlen hpt
    cases u with
    | nil =>
      cases u' with
      | nil => rfl
      | cons b' bs' => simp at hlen
    | cons b bs =>
      cases u' with
      | nil => simp at hlen
      | cons b' bs' =>
        cases m with
        | nil => rfl
        | cons c cs =>
          have htl : ∀ p, (cs.getD p none).isSome = true →
              bs.getD p Cell.nan = bs'.getD p Cell.nan := by
            intro p hp
            have := hpt (p + 1)
            simpa using this (by simpa using hp)
          have hlen' : bs.length = bs'.length := by simpa using hlen
          cases hc : c with
          | none =>
            simp only [mkVRows, List.filter_cons, hc, Option.isSome_none]
            exact ih cs bs bs' hlen' htl
          | some x =>
            have hb : b = b' := by
              have := hpt 0 (by simp [hc])
              simpa using this
            subst hb
            simp only [mkVRows, List.filter_cons, hc, Option.isSome_some]
            rw [ih cs bs bs' hlen' htl]

theorem VSPink.survivors_setQty (t : Table) (i : Nat) (v w : Cell)
    (hnone : (VSPink.monthsCol t).getD i none = none) :
    VSPink.survivors (VSPink.setQty t i v) =
      VSPink.survivors (VSPink.setQty t i w) := by
  unfold VSPink.survivors
  rw [VSPink.tuples_setQty, VSPink.tuples_setQty,
    VSPink.monthsCol_setQty, VSPink.monthsCol_setQty]
  apply mkVRows_filter_congr
  · rw [VSPink.qtyCol_setQty_length, VSPink.qtyCol_setQty_length]
  · intro p hp
    by_cases hpi : p = i
    · subst hpi
      rw [hnone] at hp
      simp at hp
    · rw [VSPink.qtyCol_setQty_getD t i v p hpi,
        VSPink.qtyCol_setQty_getD t i w p hpi]

/-- The whole VSPINK pivot depends on the table only through its
surviving rows. -/
theorem VSPink.output_eq_of_survivors_eq {t₁ t₂ : Table}
    (h : VSPink.survivors t₁ = VSPink.survivors t₂) :
    VSPink.output t₁ = VSPink.output t₂ := by
  unfold VSPink.output VSPink.pivotTable VSPink.vGroups VSPink.vMonths
    VSPink.vCell VSPink.keptG VSPink.grouped VSPink.groupKeys
  rw [h]

/-- A nodup list whose predicate holds exactly at `a` filters to `[a]`. -/
theorem filter_eq_singleton_of_nodup {α : Type} [DecidableEq α]
    {l : List α} (hnd : l.Nodup) {a : α} (ha : a ∈ l) (p : α → Bool)
    (hp : ∀ x ∈ l, p x = decide (x = a)) : l.filter p = [a] := by
  induction l with
  | nil => cases ha
  | cons b bs ih =>
    rw [List.nodup_cons] at hnd
    rw [List.filter_cons]
    by_cases hb : b = a
    · subst hb
      have hnil : bs.filter p = [] := by
        apply List.filter_eq_nil_iff.mpr
        intro x hx hpx
        rw [hp x (List.mem_cons_of_mem _ hx)] at hpx
        exact hnd.1 (of_decide_eq_true hpx ▸ hx)
      rw [hp b (List.mem_cons_self _ _)]
      simp [hnil]
    · rw [hp b (List.mem_cons_self _ _)]
      have hbf : decide (b = a) = false := by simp [hb]
      rw [hbf]
      have ha' : a ∈ bs := by
        rcases List.mem_cons.mp ha with h | h
        · exact absurd h.symm hb
        · exact h
      simpa using ih hnd.2 ha'
        (fun x hx => hp x (List.mem_cons_of_mem _ hx))

theorem Savage.transform_style_units_ok_iff {t out : Table} :
    Savage.transform_style_units t = .ok out ↔
      Savage.missingCols t = [] ∧ out = Savage.output t := by
  unfold Savage.transform_style_units
  by_cases h : Savage.missingCols t = []
  · rw [if_pos h]
    constructor
    · intro hh
      injection hh with hh
      exact ⟨h, hh.symm⟩
    · rintro ⟨-, rfl⟩
      rfl
  · rw [if_neg h]
    constructor
    · intro hh
      cases hh
    · rintro ⟨h1, -⟩
      exact absurd h1 h

theorem VSPink.transform_vspink_ok_iff {t out : Table} :
    VSPink.transform_vspink t = .ok out ↔
      VSPink.missingCols t = [] ∧ out = VSPink.output t := by
  unfold VSPink.transform_vspink
  by_cases h : VSPink.missingCols t = []
  · rw [if_pos h]
    constructor
    · intro hh
      injection hh with hh
      exact ⟨h, hh.symm⟩
    · rintro ⟨-, rfl⟩
      rfl
  · rw [if_neg h]
    constructor
    · intro hh
      cases hh
    · rintro ⟨h1, -⟩
      exact absurd h1 h

theorem Savage.survivors_eq_nil (t : Table)
    (hall : ∀ x ∈ Savage.monthsCol t, x = none) : Savage.survivors t = [] := by
  unfold Savage.survivors
  apply List.filter_eq_nil_iff.mpr
  intro r hr hp
  have hmem := mkRows_month_mem hr
  rw [hall _ hmem] at hp
  simp at hp

/-- The decomposition of the reordered output columns: non-month columns
first, then exactly the present months in `month_order` order.  Holds for
any pivoted table fed to `reorderMonths`. -/
theorem reorderMonths_cols_decomp (tb : Table) :
    (reorderMonths tb).cols =
      (reorderMonths tb).cols.filter (fun c => decide (c ∉ monthOrder)) ++
        monthOrder.filter (fun m => decide (m ∈ (reorderMonths tb).cols)) := by
  have hcols : (reorderMonths tb).cols =
      tb.cols.filter (fun c => decide (c ∉ monthOrder)) ++
        monthOrder.filter (fun m => decide (m ∈ tb.cols)) := rfl
  rw [hcols]
  have h1 : (tb.cols.filter (fun c => decide (c ∉ monthOrder)) ++
      monthOrder.filter (fun m => decide (m ∈ tb.cols))).filter
        (fun c => decide (c ∉ monthOrder)) =
      tb.cols.filter (fun c => decide (c ∉ monthOrder)) := by
    rw [List.filter_append]
    have hA : (tb.cols.filter (fun c => decide (c ∉ monthOrder))).filter
        (fun c => decide (c ∉ monthOrder)) =
        tb.cols.filter (fun c => decide (c ∉ monthOrder)) :=
      List.filter_eq_self.mpr (fun a ha => (List.mem_filter.mp ha).2)
    have hB : (monthOrder.filter (fun m => decide (m ∈ tb.cols))).filter
        (fun c => decide (c ∉ monthOrder)) = [] := by
      apply List.filter_eq_nil_iff.mpr
      intro a ha hcon
      have haMO : a ∈ monthOrder := (List.mem_filter.mp ha).1
      simp only [decide_eq_true_eq] at hcon
      exact hcon haMO
    rw [hA, hB, List.append_nil]
  have h2 : monthOrder.filter (fun m =>
      decide (m ∈ tb.cols.filter (fun c => decide (c ∉ monthOrder)) ++
        monthOrder.filter (fun m' => decide (m' ∈ tb.cols)))) =
      monthOrder.filter (fun m => decide (m ∈ tb.cols)) := by
    apply List.filter_congr
    intro x hx
    have hxA : x ∉ tb.cols.filter (fun c => decide (c ∉ monthOrder)) := by
      intro hxa
      have := (List.mem_filter.mp hxa).2
      simp only [decide_eq_true_eq] at this
      exact this hx
    simp only [decide_eq_decide]
    rw [List.mem_append]
    constructor
    · rintro (h | h)
      · exact absurd h hxA
      · exact of_decide_eq_true (List.mem_filter.mp h).2
    · intro h
      exact Or.inr (List.mem_filter.mpr ⟨hx, by simpa using h⟩)
  rw [h1, h2]

theorem PLM.base_cols_not_sum :
    ∀ c ∈ PLM.base_cols, startsWith (lowerStr (strip c)) "sum" = false := by
  decide

/-- Every column of a processed sheet is a schema column or passed the
drop-"sum" mask. -/
theorem PLM.processSheet_cols {s : String} {df : Table} {c : String}
    (hc : c ∈ (PLM.processSheet s df).cols) :
    c ∈ PLM.base_cols ∨ startsWith (lowerStr (strip c)) "sum" = false := by
  unfold PLM.processSheet Table.select at hc
  simp only [List.mem_append] at hc
  rcases hc with hc | hc
  · exact Or.inl hc
  · rw [List.mem_filter] at hc
    obtain ⟨hc1, hc2⟩ := hc
    simp only [decide_eq_true_eq] at hc2
    rw [List.mem_append] at hc1
    rcases hc1 with hc1 | hc1
    · rw [List.mem_cons] at hc1
      rcases hc1 with hc1 | hc1
      · exact absurd (hc1 ▸ (by decide : ("Sheet Names" : String) ∈
          PLM.base_cols)) hc2
      · rw [List.mem_filter] at hc1
        obtain ⟨-, hmask⟩ := hc1
        exact Or.inr (by simpa using hmask)
    · rw [List.mem_filter] at hc1
      exact absurd hc1.1 hc2

/-- If no surviving VSPINK row carries the identity tuple and month, no
grouped row does either. -/
theorem VSPink.no_grouped_row (t : Table) (tup : List Cell) (m : String)
    (hno : ∀ r ∈ VSPink.survivors t, ¬(r.tuple = tup ∧ r.month = some m)) :
    (VSPink.keptG t).filter
      (fun gr => decide (gr.tuple = tup ∧ gr.month = some m)) = [] := by
  apply List.filter_eq_nil_iff.mpr
  intro gr hgr hp
  simp only [decide_eq_true_eq] at hp
  obtain ⟨hp1, hp2⟩ := hp
  have hgrm : gr ∈ VSPink.grouped t := (List.mem_filter.mp hgr).1
  unfold VSPink.grouped at hgrm
  rw [List.mem_map] at hgrm
  obtain ⟨k, hk, hkeq⟩ := hgrm
  obtain ⟨k1, k2⟩ := k
  subst hkeq
  simp only at hp1 hp2
  unfold VSPink.groupKeys at hk
  rw [List.mem_dedup, List.mem_map] at hk
  obtain ⟨r, hr, hrk⟩ := hk
  rw [Prod.mk.injEq] at hrk
  exact hno r hr ⟨hrk.1.trans hp1, hrk.2.trans hp2⟩

/-- When the surviving VSPINK rows of the (tuple, month) group carry the
single text measure `"1,250"`, that text — untouched by any coercion —
is the pivot cell: the group's stage-one sum is the text itself, the
NaN-free tuple survives the pivot's key filter, and the pivot re-sum of
the singleton group returns it unchanged. -/
theorem VSPink.vCell_singleton_text (t : Table) (tup : List Cell)
    (m : String) (hnan : Cell.nan ∉ tup)
    (hq : ((VSPink.survivors t).filter
        (fun r => decide (r.tuple = tup ∧ r.month = some m))).map
        (fun r => r.qty) = [Cell.str "1,250"]) :
    VSPink.vCell t tup m = Cell.str "1,250" := by
  have hpred : ∀ r : VRow, (decide ((r.tuple, r.month) =
      ((tup, some m) : List Cell × Option String))) =
      (decide (r.tuple = tup ∧ r.month = some m)) := by
    intro r
    apply decide_eq_decide.mpr
    constructor
    · intro h
      exact ⟨congrArg Prod.fst h, congrArg Prod.snd h⟩
    · rintro ⟨h1, h2⟩
      rw [h1, h2]
  have hqk : ((VSPink.survivors t).filter
      (fun r => decide ((r.tuple, r.month) =
        ((tup, some m) : List Cell × Option String)))).map
      (fun r => r.qty) = [Cell.str "1,250"] := by
    rw [List.filter_congr (fun r _ => hpred r)]
    exact hq
  have hkeymem : ((tup, some m) : List Cell × Option String) ∈
      VSPink.groupKeys t := by
    unfold VSPink.groupKeys
    rw [List.mem_dedup, List.mem_map]
    have hne : (VSPink.survivors t).filter
        (fun r => decide ((r.tuple, r.month) =
          ((tup, some m) : List Cell × Option String))) ≠ [] := by
      intro hnil
      rw [hnil] at hqk
      simp at hqk
    obtain ⟨r, hr⟩ := List.exists_mem_of_ne_nil _ hne
    have hr2 := List.mem_filter.mp hr
    exact ⟨r, hr2.1, of_decide_eq_true hr2.2⟩
  have hflt : (VSPink.keptG t).filter
      (fun gr => decide (gr.tuple = tup ∧ gr.month = some m)) =
      [⟨tup, some m, sumCells (((VSPink.survivors t).filter
        (fun r => decide ((r.tuple, r.month) =
          ((tup, some m) : List Cell × Option String)))).map
        (fun r => r.qty))⟩] := by
    unfold VSPink.keptG VSPink.grouped
    rw [List.filter_filter, List.filter_map]
    have hnd : (VSPink.groupKeys t).Nodup := by
      unfold VSPink.groupKeys
      exact List.nodup_dedup _
    refine Eq.trans (congrArg _
      (filter_eq_singleton_of_nodup hnd hkeymem _ ?_)) rfl
    intro k hk
    obtain ⟨k1, k2⟩ := k
    show (decide (k1 = tup ∧ k2 = some m) && decide (Cell.nan ∉ k1)) =
      decide (((k1, k2) : List Cell × Option String) = (tup, some m))
    by_cases hand : k1 = tup ∧ k2 = some m
    · obtain ⟨rfl, rfl⟩ := hand
      simp [hnan]
    · have hne2 : ¬ (((k1, k2) : List Cell × Option String) =
          (tup, some m)) := by
        intro h
        exact hand ⟨congrArg Prod.fst h, congrArg Prod.snd h⟩
      simp [hand, hne2]
  unfold VSPink.vCell
  rw [hflt]
  show sumCells [sumCells (((VSPink.survivors t).filter
    (fun r => decide ((r.tuple, r.month) =
      ((tup, some m) : List Cell × Option String)))).map
    (fun r => r.qty))] = Cell.str "1,250"
  rw [hqk]
  decide

/-! ### Claim theorems -/

/-- Scenario A input: headers (already on the header row after the
loader's header-offset 2 read) `DESIGN STYLE`, `XFD`, `GLOBAL UNITS`;
dates 2024-01-15 / 2024-02-20 / 2024-01-10; units 100 / 50 / 25; style
`S1` throughout. -/
def savageScenarioA : Table :=
  ⟨["DESIGN STYLE", "XFD", "GLOBAL UNITS"],
   [[Cell.str "S1", Cell.str "2024-01-15", Cell.num 100],
    [Cell.str "S1", Cell.str "2024-02-20", Cell.num 50],
    [Cell.str "S1", Cell.str "2024-01-10", Cell.num 25]]⟩

/-- C1: on the Scenario A input the Savage Buy transform yields exactly
one row, for `S1`, with JAN = 125 and FEB = 50; no other month column is
present, so every other month cell is (vacuously) 0. -/
theorem C1_savage_scenarioA :
    Savage.transform_style_units savageScenarioA =
      .ok ⟨["DESIGN STYLE", "JAN", "FEB"],
        [[Cell.str "S1", Cell.num 125, Cell.num 50]]⟩ := by
  decide

/-- C2: the serial-number fallback (day-count from 1899-12-30) is applied
if and only if the day-first text parse produced no value for any cell
and the column's underlying values are all numeric; otherwise the
day-first text-parse results are used. -/
theorem C2_serial_fallback_iff (col : List Cell) :
    (((col.map parseTextCell).all (fun o => o.isNone) = true ∧
        isNumericCol col = true) →
      parseDateColumn col = col.map parseSerialCell) ∧
    (¬ ((col.map parseTextCell).all (fun o => o.isNone) = true ∧
        isNumericCol col = true) →
      parseDateColumn col = col.map parseTextCell) := by
  have hshow : parseDateColumn col =
      if (col.map parseTextCell).all (fun o => o.isNone) && isNumericCol col
      then col.map parseSerialCell else col.map parseTextCell := rfl
  constructor
  · rintro ⟨h1, h2⟩
    rw [hshow, h1, h2]
    rfl
  · intro h
    rw [hshow, if_neg]
    intro hb
    rw [Bool.and_eq_true] at hb
    exact h ⟨hb.1, hb.2⟩

/-- Witness for C2: an all-NaN-parse numeric column (a single value too
large for a timestamp) takes the serial branch; a column with one
ordinary numeric cell parses in step 1 and keeps the text-parse result. -/
theorem C2_serial_fallback_iff_witness :
    (([Cell.num 9223372036854775808].map parseTextCell).all
        (fun o => o.isNone) = true ∧
      isNumericCol [Cell.num 9223372036854775808] = true) ∧
    parseDateColumn [Cell.num 9223372036854775808] =
      [Cell.num 9223372036854775808].map parseSerialCell ∧
    ¬ (([Cell.num 45000].map parseTextCell).all (fun o => o.isNone) = true ∧
      isNumericCol [Cell.num 45000] = true) ∧
    parseDateColumn [Cell.num 45000] = [Cell.num 45000].map parseTextCell :=
  ⟨⟨by decide, by decide⟩,
    (C2_serial_fallback_iff [Cell.num 9223372036854775808]).1
      ⟨by decide, by decide⟩,
    by decide,
    (C2_serial_fallback_iff [Cell.num 45000]).2 (by decide)⟩

/-- A Savage Buy input whose only measure cell is the text `"1,250"`. -/
def savageTextMeasure : Table :=
  ⟨["DESIGN STYLE", "XFD", "GLOBAL UNITS"],
   [[Cell.str "S1", Cell.str "2024-01-15", Cell.str "1,250"]]⟩

/-- C3 counterexample: the code performs no separator-stripping or
numeric parsing of the measure column — the text `"1,250"` reaches the
output cell as the text `"1,250"` (pandas object-dtype sum), not as the
number 1250 the claim asserts. -/
theorem C3_counterexample_no_coercion :
    Savage.transform_style_units savageTextMeasure =
      .ok ⟨["DESIGN STYLE", "JAN"], [[Cell.str "S1", Cell.str "1,250"]]⟩ ∧
    Cell.str "1,250" ≠ Cell.num 1250 := by
  decide

/-- A VSPINK input whose only measure cell is the text `"1,250"`. -/
def vspinkTextMeasure : Table :=
  ⟨VSPink.required,
   [[Cell.str "C1", Cell.str "Sup", Cell.str "LK", Cell.str "Asia",
     Cell.str "P", Cell.str "Con", Cell.str "A1", Cell.str "1",
     Cell.str "Cot", Cell.str "YD", Cell.str "1,250",
     Cell.str "2024-01-15"]]⟩

/-- The identity tuple of `vspinkTextMeasure`. -/
def vspinkTextTuple : List Cell :=
  [Cell.str "C1", Cell.str "Sup", Cell.str "LK", Cell.str "Asia",
   Cell.str "P", Cell.str "Con", Cell.str "A1", Cell.str "1",
   Cell.str "Cot", Cell.str "YD"]

/-- C3 (amended): neither reshape transform applies any numeric coercion
to its measure column — a group whose sole surviving measure cell is the
text `"1,250"` has that text, not the number 1250, as its output cell,
in the Savage Buy pivot (read off the final output table) and in the
VSPINK pivot's cell aggregation alike. -/
theorem C3_text_measure_aggregated_as_text (t out : Table) (g : Cell)
    (tup : List Cell) (m : String) :
    (Savage.transform_style_units t = .ok out →
      g ∈ Savage.groups t → m ∈ Savage.monthsPresent t →
      ((Savage.keptOf (Savage.survivors t)).filter
        (fun r => decide (r.style = g ∧ r.month = some m))).map
        (fun r => r.unit) = [Cell.str "1,250"] →
      out.lookupCell g m = Cell.str "1,250" ∧
        Cell.str "1,250" ≠ Cell.num 1250) ∧
    (Cell.nan ∉ tup →
      ((VSPink.survivors t).filter
        (fun r => decide (r.tuple = tup ∧ r.month = some m))).map
        (fun r => r.qty) = [Cell.str "1,250"] →
      VSPink.vCell t tup m = Cell.str "1,250" ∧
        Cell.str "1,250" ≠ Cell.num 1250) := by
  constructor
  · intro hok hg hm hunits
    obtain ⟨-, rfl⟩ := Savage.transform_style_units_ok_iff.mp hok
    refine ⟨?_, by decide⟩
    rw [show Savage.output t = Savage.outputOfRows (Savage.survivors t) from
      rfl]
    rw [Savage.lookupCell_outputOfRows _
      (Savage.monthsPresent_mem_monthOrder t) hg hm]
    unfold Savage.cellOf
    rw [hunits]
    decide
  · intro hnan hq
    exact ⟨VSPink.vCell_singleton_text t tup m hnan hq, by decide⟩

/-- Witness for the amended C3, at concrete one-row inputs for both
transforms. -/
theorem C3_text_measure_aggregated_as_text_witness :
    Savage.transform_style_units savageTextMeasure =
      .ok ⟨["DESIGN STYLE", "JAN"], [[Cell.str "S1", Cell.str "1,250"]]⟩ ∧
    (⟨["DESIGN STYLE", "JAN"], [[Cell.str "S1", Cell.str "1,250"]]⟩ :
        Table).lookupCell (Cell.str "S1") "JAN" = Cell.str "1,250" ∧
    VSPink.vCell vspinkTextMeasure vspinkTextTuple "JAN" =
      Cell.str "1,250" :=
  ⟨by decide,
    ((C3_text_measure_aggregated_as_text savageTextMeasure _
      (Cell.str "S1") [] "JAN").1 (by decide) (by decide) (by decide)
      (by decide)).1,
    ((C3_text_measure_aggregated_as_text vspinkTextMeasure ⟨[], []⟩
      Cell.nan vspinkTextTuple "JAN").2 (by decide) (by decide)).1⟩

/-- A single-table input missing both `XFD` and `GLOBAL UNITS`. -/
def onlyStyleTable : Table := ⟨["DESIGN STYLE"], []⟩

/-- C4 counterexample: src/app.py's `transform_style_units` does not list
every missing required column — on an input missing both `XFD` and
`GLOBAL UNITS` it fails with a `KeyError` naming only `XFD`. -/
theorem C4_counterexample_app_keyerror :
    App.transform_style_units onlyStyleTable = .error (.keyError "XFD") ∧
    Savage.missingCols onlyStyleTable = ["XFD", "GLOBAL UNITS"] ∧
    "GLOBAL UNITS" ∉ (Err.keyError "XFD").mentions := by
  decide

/-- C4 (amended): the src/Savage.py transforms (`transform_style_units`
and `transform_vspink`) fail with an error listing every missing required
column and produce no output table; src/app.py's `transform_style_units`
instead silently subsets and fails later with a single-name KeyError. -/
theorem C4_missing_columns_listed (t : Table) :
    (Savage.missingCols t ≠ [] →
      Savage.transform_style_units t =
        .error (.missingCols "Missing required columns for Savage Buy file"
          (Savage.missingCols t)) ∧
      ∀ c ∈ Savage.required, c ∉ Savage.normCols t →
        c ∈ (Err.missingCols "Missing required columns for Savage Buy file"
          (Savage.missingCols t)).mentions) ∧
    (VSPink.missingCols t ≠ [] →
      VSPink.transform_vspink t =
        .error (.missingCols "Missing required columns for VSPINK"
          (VSPink.missingCols t)) ∧
      ∀ c ∈ VSPink.required, c ∉ VSPink.normCols t →
        c ∈ (Err.missingCols "Missing required columns for VSPINK"
          (VSPink.missingCols t)).mentions) := by
  constructor
  · intro h
    constructor
    · unfold Savage.transform_style_units
      rw [if_neg h]
    · intro c hc hnot
      show c ∈ Savage.missingCols t
      unfold Savage.missingCols
      rw [List.mem_filter]
      exact ⟨hc, by simpa using hnot⟩
  · intro h
    constructor
    · unfold VSPink.transform_vspink
      rw [if_neg h]
    · intro c hc hnot
      show c ∈ VSPink.missingCols t
      unfold VSPink.missingCols
      rw [List.mem_filter]
      exact ⟨hc, by simpa using hnot⟩

/-- Witness for the amended C4, at the empty table (all columns missing). -/
theorem C4_missing_columns_listed_witness :
    Savage.transform_style_units ⟨[], []⟩ =
      .error (.missingCols "Missing required columns for Savage Buy file"
        (Savage.missingCols ⟨[], []⟩)) ∧
    "GLOBAL UNITS" ∈ (Err.missingCols
      "Missing required columns for Savage Buy file"
      (Savage.missingCols ⟨[], []⟩)).mentions ∧
    VSPink.transform_vspink ⟨[], []⟩ =
      .error (.missingCols "Missing required columns for VSPINK"
        (VSPink.missingCols ⟨[], []⟩)) :=
  ⟨((C4_missing_columns_listed ⟨[], []⟩).1 (by decide)).1,
    ((C4_missing_columns_listed ⟨[], []⟩).1 (by decide)).2 "GLOBAL UNITS"
      (by decide) (by decide),
    ((C4_missing_columns_listed ⟨[], []⟩).2 (by decide)).1⟩

/-- C5: a row whose date cell parses under neither the text rule nor the
serial fallback has an empty month, is dropped by the month filter, and
therefore contributes to no output cell: neither transform's result
depends on that row's measure value. -/
theorem C5_unparsable_date_row_inert (t : Table) (i : Nat) (v w : Cell) :
    ((Savage.monthsCol t).getD i none = none →
      Savage.transform_style_units (Savage.setMeasure t i v) =
        Savage.transform_style_units (Savage.setMeasure t i w)) ∧
    ((VSPink.monthsCol t).getD i none = none →
      VSPink.transform_vspink (VSPink.setQty t i v) =
        VSPink.transform_vspink (VSPink.setQty t i w)) := by
  constructor
  · intro hnone
    unfold Savage.transform_style_units
    rw [Savage.missingCols_setMeasure, Savage.missingCols_setMeasure]
    by_cases h : Savage.missingCols t = []
    · rw [if_pos h, if_pos h]
      rw [show Savage.output (Savage.setMeasure t i v) =
        Savage.outputOfRows (Savage.survivors (Savage.setMeasure t i v)) from
        rfl]
      rw [show Savage.output (Savage.setMeasure t i w) =
        Savage.outputOfRows (Savage.survivors (Savage.setMeasure t i w)) from
        rfl]
      rw [Savage.survivors_setMeasure t i v w hnone]
    · rw [if_neg h, if_neg h]
  · intro hnone
    unfold VSPink.transform_vspink
    rw [VSPink.missingCols_setQty, VSPink.missingCols_setQty]
    by_cases h : VSPink.missingCols t = []
    · rw [if_pos h, if_pos h]
      rw [VSPink.output_eq_of_survivors_eq
        (VSPink.survivors_setQty t i v w hnone)]
    · rw [if_neg h, if_neg h]

/-- A Savage Buy table whose first row has an unparsable date. -/
def savageGarbageDate : Table :=
  ⟨["DESIGN STYLE", "XFD", "GLOBAL UNITS"],
   [[Cell.str "S1", Cell.str "not a date", Cell.num 7],
    [Cell.str "S1", Cell.str "2024-01-15", Cell.num 3]]⟩

/-- A VSPINK table whose first row has an unparsable `EX-mill` date. -/
def vspinkGarbageDate : Table :=
  ⟨VSPink.required,
   [[Cell.str "C1", Cell.str "Sup", Cell.str "LK", Cell.str "Asia",
     Cell.str "P", Cell.str "Con", Cell.str "A1", Cell.str "1",
     Cell.str "Cot", Cell.str "YD", Cell.num 7, Cell.str "not a date"],
    [Cell.str "C1", Cell.str "Sup", Cell.str "LK", Cell.str "Asia",
     Cell.str "P", Cell.str "Con", Cell.str "A1", Cell.str "1",
     Cell.str "Cot", Cell.str "YD", Cell.num 3, Cell.str "2024-01-15"]]⟩

/-- Witness for C5: changing the dropped first row's measure from 100 to
999999 leaves either transform's output unchanged. -/
theorem C5_unparsable_date_row_inert_witness :
    (Savage.monthsCol savageGarbageDate).getD 0 none = none ∧
    Savage.transform_style_units
        (Savage.setMeasure savageGarbageDate 0 (Cell.num 100)) =
      Savage.transform_style_units
        (Savage.setMeasure savageGarbageDate 0 (Cell.num 999999)) ∧
    (VSPink.monthsCol vspinkGarbageDate).getD 0 none = none ∧
    VSPink.transform_vspink
        (VSPink.setQty vspinkGarbageDate 0 (Cell.num 100)) =
      VSPink.transform_vspink
        (VSPink.setQty vspinkGarbageDate 0 (Cell.num 999999)) :=
  ⟨by decide,
    (C5_unparsable_date_row_inert savageGarbageDate 0 (Cell.num 100)
      (Cell.num 999999)).1 (by decide),
    by decide,
    (C5_unparsable_date_row_inert vspinkGarbageDate 0 (Cell.num 100)
      (Cell.num 999999)).2 (by decide)⟩

/-- C6: a (group, month) combination with no surviving input row reads as
exactly 0 in the pivoted output, never as a missing marker — for the
Savage Buy pivot (read off the final output table) and for the VSPINK
pivot's cell aggregation alike. -/
theorem C6_absent_combination_zero (t out : Table) (g : Cell)
    (tup : List Cell) (m : String) :
    (Savage.transform_style_units t = .ok out →
      g ∈ Savage.groups t → m ∈ Savage.monthsPresent t →
      (∀ r ∈ Savage.survivors t, ¬(r.style = g ∧ r.month = some m)) →
      out.lookupCell g m = Cell.num 0 ∧ out.lookupCell g m ≠ Cell.nan) ∧
    (tup ∈ VSPink.vGroups t → m ∈ VSPink.vMonths t →
      (∀ r ∈ VSPink.survivors t, ¬(r.tuple = tup ∧ r.month = some m)) →
      VSPink.vCell t tup m = Cell.num 0 ∧
        VSPink.vCell t tup m ≠ Cell.nan) := by
  constructor
  · intro hok hg hm hno
    obtain ⟨-, rfl⟩ := Savage.transform_style_units_ok_iff.mp hok
    have hfil : (Savage.keptOf (Savage.survivors t)).filter
        (fun r => decide (r.style = g ∧ r.month = some m)) = [] := by
      apply List.filter_eq_nil_iff.mpr
      intro r hr hp
      simp only [decide_eq_true_eq] at hp
      exact hno r (List.mem_filter.mp hr).1 hp
    have hcell : Savage.cellOf (Savage.survivors t) g m = Cell.num 0 := by
      unfold Savage.cellOf
      rw [hfil]
      decide
    rw [show Savage.output t = Savage.outputOfRows (Savage.survivors t) from
      rfl]
    rw [Savage.lookupCell_outputOfRows _
      (Savage.monthsPresent_mem_monthOrder t) hg hm, hcell]
    exact ⟨rfl, by decide⟩
  · intro htup hm hno
    have hfil := VSPink.no_grouped_row t tup m hno
    have hcell : VSPink.vCell t tup m = Cell.num 0 := by
      unfold VSPink.vCell
      rw [hfil]
      decide
    rw [hcell]
    exact ⟨rfl, by decide⟩

/-- Two styles, each with one month, so each style's row carries a 0 in
the other style's month column. -/
def savageTwoStyles : Table :=
  ⟨["DESIGN STYLE", "XFD", "GLOBAL UNITS"],
   [[Cell.str "S1", Cell.str "2024-01-15", Cell.num 100],
    [Cell.str "S2", Cell.str "2024-02-20", Cell.num 50]]⟩

/-- Two VSPINK identity tuples, each with one month. -/
def vspinkTwoTuples : Table :=
  ⟨VSPink.required,
   [[Cell.str "C1", Cell.str "Sup", Cell.str "LK", Cell.str "Asia",
     Cell.str "P", Cell.str "Con", Cell.str "A1", Cell.str "1",
     Cell.str "Cot", Cell.str "YD", Cell.num 100, Cell.str "2024-01-15"],
    [Cell.str "C2", Cell.str "Sup", Cell.str "LK", Cell.str "Asia",
     Cell.str "P", Cell.str "Con", Cell.str "A1", Cell.str "1",
     Cell.str "Cot", Cell.str "YD", Cell.num 50, Cell.str "2024-02-20"]]⟩

/-- The first identity tuple of `vspinkTwoTuples`. -/
def vspinkTupleA : List Cell :=
  [Cell.str "C1", Cell.str "Sup", Cell.str "LK", Cell.str "Asia",
   Cell.str "P", Cell.str "Con", Cell.str "A1", Cell.str "1",
   Cell.str "Cot", Cell.str "YD"]

/-- Witness for C6 at concrete inputs: style `S1` has no FEB row, and its
FEB cell in the output is exactly 0; likewise for the VSPINK tuple. -/
theorem C6_absent_combination_zero_witness :
    (⟨["DESIGN STYLE", "JAN", "FEB"],
      [[Cell.str "S1", Cell.num 100, Cell.num 0],
       [Cell.str "S2", Cell.num 0, Cell.num 50]]⟩ : Table).lookupCell
      (Cell.str "S1") "FEB" = Cell.num 0 ∧
    VSPink.vCell vspinkTwoTuples vspinkTupleA "FEB" = Cell.num 0 :=
  ⟨((C6_absent_combination_zero savageTwoStyles
      ⟨["DESIGN STYLE", "JAN", "FEB"],
        [[Cell.str "S1", Cell.num 100, Cell.num 0],
         [Cell.str "S2", Cell.num 0, Cell.num 50]]⟩
      (Cell.str "S1") [] "FEB").1 (by decide) (by decide) (by decide)
      (by decide)).1,
    ((C6_absent_combination_zero vspinkTwoTuples ⟨[], []⟩ Cell.nan
      vspinkTupleA "FEB").2 (by decide) (by decide) (by decide)).1⟩

/-- C7: in every successfully produced output, the month columns follow
all non-month columns and appear in the calendar order JAN…DEC restricted
to the months present, whatever order the input rows were in. -/
theorem C7_month_columns_calendar_order (t out : Table)
    (h : Savage.transform_style_units t = .ok out ∨
      VSPink.transform_vspink t = .ok out) :
    out.cols = out.cols.filter (fun c => decide (c ∉ monthOrder)) ++
      monthOrder.filter (fun m => decide (m ∈ out.cols)) := by
  rcases h with h | h
  · obtain ⟨-, rfl⟩ := Savage.transform_style_units_ok_iff.mp h
    exact reorderMonths_cols_decomp (Savage.pivotOfRows (Savage.survivors t))
  · obtain ⟨-, rfl⟩ := VSPink.transform_vspink_ok_iff.mp h
    exact reorderMonths_cols_decomp (VSPink.pivotTable t)

/-- Witness for C7 at the Scenario A input. -/
theorem C7_month_columns_calendar_order_witness :
    (⟨["DESIGN STYLE", "JAN", "FEB"],
      [[Cell.str "S1", Cell.num 125, Cell.num 50]]⟩ : Table).cols =
      (⟨["DESIGN STYLE", "JAN", "FEB"],
        [[Cell.str "S1", Cell.num 125, Cell.num 50]]⟩ : Table).cols.filter
          (fun c => decide (c ∉ monthOrder)) ++
        monthOrder.filter (fun m => decide (m ∈
          (⟨["DESIGN STYLE", "JAN", "FEB"],
            [[Cell.str "S1", Cell.num 125, Cell.num 50]]⟩ : Table).cols)) :=
  C7_month_columns_calendar_order savageScenarioA _ (Or.inl (by decide))

/-- C8: no column whose stripped, lower-cased name starts with "sum"
appears in the combined multi-sheet output, for any workbook. -/
theorem C8_no_sum_columns (sheets : List (String × Table)) (c : String)
    (hc : c ∈ (PLM.transform_plm_to_mcu sheets).cols) :
    startsWith (lowerStr (strip c)) "sum" = false := by
  by_cases hemp : (PLM.expected_sheet_names.filterMap
      (fun s => (PLM.lookupSheet sheets s).map
        (fun df => PLM.processSheet s df))) = []
  · simp only [PLM.transform_plm_to_mcu] at hc
    rw [if_pos hemp] at hc
    exact PLM.base_cols_not_sum c hc
  · simp only [PLM.transform_plm_to_mcu, Table.select] at hc
    rw [if_neg hemp] at hc
    rcases List.mem_append.mp hc with h | h
    · exact PLM.base_cols_not_sum c h
    · obtain ⟨hmem, hnb⟩ := List.mem_filter.mp h
      simp only [decide_eq_true_eq] at hnb
      rw [List.mem_dedup, List.mem_flatMap] at hmem
      obtain ⟨tb, htb, hctb⟩ := hmem
      rw [List.mem_filterMap] at htb
      obtain ⟨s, -, hmap⟩ := htb
      rw [Option.map_eq_some'] at hmap
      obtain ⟨df, -, hdf⟩ := hmap
      subst hdf
      rcases PLM.processSheet_cols hctb with hbase | hok
      · exact absurd hbase hnb
      · exact hok

/-- Witness for C8: a workbook whose `Fabrics` sheet has a `Sum of Qty`
column; the surviving `Style` column passes the no-"sum" test. -/
theorem C8_no_sum_columns_witness :
    "Style" ∈ (PLM.transform_plm_to_mcu
      [("Fabrics", ⟨["Style", "Sum of Qty", "Jan-24"],
        [[Cell.str "A", Cell.num 5, Cell.num 7]]⟩)]).cols ∧
    startsWith (lowerStr (strip "Style")) "sum" = false :=
  ⟨by decide,
    C8_no_sum_columns
      [("Fabrics", ⟨["Style", "Sum of Qty", "Jan-24"],
        [[Cell.str "A", Cell.num 5, Cell.num 7]]⟩)] "Style" (by decide)⟩

/-- C9: when no row survives month filtering the Savage Buy transform
returns the header-only table with just the identity column, without an
error; when no allow-listed sheet is present the combiner returns the
header-only schema table. -/
theorem C9_empty_result_header_only (t : Table)
    (sheets : List (String × Table)) :
    (Savage.missingCols t = [] → (∀ x ∈ Savage.monthsCol t, x = none) →
      Savage.transform_style_units t = .ok ⟨["DESIGN STYLE"], []⟩) ∧
    ((∀ s ∈ PLM.expected_sheet_names, PLM.lookupSheet sheets s = none) →
      PLM.transform_plm_to_mcu sheets = ⟨PLM.base_cols, []⟩) := by
  constructor
  · intro hmiss hall
    unfold Savage.transform_style_units
    rw [if_pos hmiss]
    rw [show Savage.output t = Savage.outputOfRows (Savage.survivors t) from
      rfl]
    rw [Savage.survivors_eq_nil t hall]
    decide
  · intro hnone
    have hemp : (PLM.expected_sheet_names.filterMap
        (fun s => (PLM.lookupSheet sheets s).map
          (fun df => PLM.processSheet s df))) = [] :=
      List.filterMap_eq_nil_iff.mpr (fun s hs => by rw [hnone s hs]; rfl)
    simp only [PLM.transform_plm_to_mcu]
    rw [if_pos hemp]

/-- A table with the required columns but no parseable date. -/
def savageNoDates : Table :=
  ⟨["DESIGN STYLE", "XFD", "GLOBAL UNITS"],
   [[Cell.str "S1", Cell.str "no date", Cell.num 7]]⟩

/-- Witness for C9: the no-parseable-date input yields the header-only
table, and a workbook with only a non-allow-listed sheet yields the
schema-only table. -/
theorem C9_empty_result_header_only_witness :
    Savage.transform_style_units savageNoDates = .ok ⟨["DESIGN STYLE"], []⟩ ∧
    PLM.transform_plm_to_mcu [("Other", ⟨["X"], []⟩)] =
      ⟨PLM.base_cols, []⟩ :=
  ⟨(C9_empty_result_header_only savageNoDates [("Other", ⟨["X"], []⟩)]).1
      (by decide) (by decide),
    (C9_empty_result_header_only savageNoDates
      [("Other", ⟨["X"], []⟩)]).2 (by decide)⟩

/-- A VSPINK input whose single row has a missing `Customer` identity
cell but a valid `EX-mill` date. -/
def vspinkNanCustomer : Table :=
  ⟨VSPink.required,
   [[Cell.nan, Cell.str "Sup", Cell.str "LK", Cell.str "Asia", Cell.str "P",
     Cell.str "Con", Cell.str "A1", Cell.str "1", Cell.str "Cot",
     Cell.str "YD", Cell.num 100, Cell.str "2024-01-15"]]⟩

/-- C10 (code evidence): the row with a missing identity cell survives
the month filter (it has a valid MonthBucket) and is kept by the
`dropna=False` groupby, yet the final `pivot_table` drops it — the
output has zero rows, contradicting the claimed no-value-marker
grouping. -/
theorem C10_nan_identity_row_dropped :
    VSPink.monthsCol vspinkNanCustomer = [some "JAN"] ∧
    (VSPink.survivors vspinkNanCustomer).length = 1 ∧
    (VSPink.grouped vspinkNanCustomer).length = 1 ∧
    VSPink.transform_vspink vspinkNanCustomer =
      .ok ⟨VSPink.static_cols, []⟩ := by
  decide

end RM
